import Mathlib

/-!
Verification development for the gwr watch-stream multiplexing core
(`marshaled.go`, `protocol/chan_buf.go`, `serve.go`).

Shallow embedding conventions:
* Go byte slices and strings are `List Nat` (one entry per byte).
* Go maps with string keys are association lists with unique keys; lookup
  returns the binding whose key equals the query (`lookupA`).
* Stateful methods become functions from the receiver state to an updated
  state paired with the Go return values.
* External effects (the outcome of an `io.Writer.Write` call, the data a
  `GenericDataSource` currently returns) are passed in as explicit
  parameters, so one Lean call models one Go call under a fixed
  environment.
* `nil` Go errors are `Option.none`; concrete error values are the
  `GwrErr` inductive below.
-/

namespace Gwr

/-- Go byte slices / strings, one `Nat` per byte. -/
abbrev Bytes := List Nat

/-- The error values that appear in the embedded code: the sentinel errors
of the gwr package plus opaque marshal / frame / write errors produced by
formats and sinks (the payload distinguishes unrelated error values). -/
inductive GwrErr where
  | unsupportedFormat
  | notGetable
  | allWritersDone
  | bufClosed
  | noServer
  | marshalErr (n : Nat)
  | frameErr (n : Nat)
  | writeErr (n : Nat)
  deriving DecidableEq, Repr

/-- Go `strings.ToLower` restricted to its action on ASCII bytes: an ASCII
upper-case letter is mapped to the corresponding lower-case letter, every
other byte is unchanged. -/
def asciiToLower (b : Nat) : Nat :=
  if 65 ≤ b ∧ b ≤ 90 then b + 32 else b

/-- `strings.ToLower` on a whole string (byte-wise, ASCII fragment). -/
def goToLower (s : Bytes) : Bytes := s.map asciiToLower

/-- Whether a string contains an (ASCII) upper-case letter. -/
def hasUpper (s : Bytes) : Bool := s.any (fun b => 65 ≤ b && b ≤ 90)

/-- Lookup in a Go map modelled as an association list (`m[key]` with
`ok` folded into the `Option`). -/
def lookupA {β : Type _} : List (Bytes × β) → Bytes → Option β
  | [], _ => none
  | (k, v) :: rest, key => if k = key then some v else lookupA rest key

/-- Replace the binding of `key` (Go `m[key] = v` on an existing key). -/
def updateA {β : Type _} : List (Bytes × β) → Bytes → β → List (Bytes × β)
  | [], _, _ => []
  | (k, v) :: rest, key, v' =>
    if k = key then (k, v') :: rest else (k, v) :: updateA rest key v'

/-- The byte string `"json"`. -/
def jsonName : Bytes := [106, 115, 111, 110]

/-- The byte string `"text"`. -/
def textName : Bytes := [116, 101, 120, 116]

/-! ## protocol/chan_buf.go -/

/-- State of a `chanBuf` (`chan_buf.go`).  The notification channel is
modelled by `sent`, the number of values sent on `cb.ready` so far; `p` is
the scratch slice reused by `drain`. -/
structure chanBuf where
  buffer : Bytes
  closed : Bool
  pending : Bool
  p : Bytes
  sent : Nat
  deriving DecidableEq, Repr

/-- `chanBuf.Write` (`chan_buf.go` lines 32–52): fails with `errBufClosed`
after `close`; otherwise appends (`bytes.Buffer.Write` always succeeds and
returns `len(p)`), and sends the buffer on `ready` exactly when the write
appended at least one byte to a non-pending buffer. -/
def chanBuf.Write (cb : chanBuf) (p : Bytes) : chanBuf × Nat × Option GwrErr :=
  if cb.closed then (cb, 0, some GwrErr.bufClosed)
  else
    let n := p.length
    if 0 < n ∧ cb.pending = false then
      ({ cb with buffer := cb.buffer ++ p, pending := true, sent := cb.sent + 1 },
       n, none)
    else
      ({ cb with buffer := cb.buffer ++ p }, n, none)

/-- `chanBuf.drain` (`chan_buf.go` lines 58–69): copy the buffered bytes
into the scratch slice, `Reset` (clears the buffer and the pending flag),
and return the copied bytes. -/
def chanBuf.drain (cb : chanBuf) : chanBuf × Bytes :=
  ({ cb with buffer := [], pending := false, p := cb.buffer }, cb.buffer)

/-- A sequence of `chanBuf.Write` calls (discarding the per-call return
values, keeping the state). -/
def chanBuf.writeSeq (cb : chanBuf) : List Bytes → chanBuf
  | [] => cb
  | p :: ps => ((cb.Write p).1).writeSeq ps

/-! ## marshaled.go : failed-index compaction

`defaultFrameWatcher.writeToAll` (lines 335–379) and
`marshaledWatcher.emit` (lines 110–157) both collect the indices of the
elements that failed this round in ascending order and then rebuild the
list in a single pass, bulk-copying the suffix after the last failed
index.  `compactLoop` is that second loop, verbatim: `orig` is the whole
list (for the trailing bulk copy), the second argument is the indexed
remainder being walked, the third is the remaining failed indices, the
last is the `okay` accumulator. -/

/-- `for i, w := range l` starting at index `k`. -/
def idxFrom {α : Type _} (k : Nat) : List α → List (Nat × α)
  | [] => []
  | a :: as => (k, a) :: idxFrom (k + 1) as

/-- The compaction loop of `writeToAll` / `emit`: walk the indexed list;
append every element whose index is not the head failed index; on reaching
the head failed index pop it, and when the failed list empties bulk-append
the trailing suffix of the original list and stop. -/
def compactLoop {α : Type _} (orig : List α) :
    List (Nat × α) → List Nat → List α → List α
  | [], _, okay => okay
  | _ :: _, [], okay => okay
  | (i, w) :: rest, f0 :: ftl, okay =>
    let okay1 := if i = f0 then okay else okay ++ [w]
    if f0 ≤ i then
      match ftl with
      | [] => okay1 ++ orig.drop (i + 1)
      | f1 :: ftl1 => compactLoop orig rest (f1 :: ftl1) okay1
    else
      compactLoop orig rest (f0 :: ftl) okay1

/-- The first loop of `writeToAll` / `emit`: the ascending list of indices
(counting from `k`) whose element fails this round. -/
def collectFailed {α : Type _} (k : Nat) (l : List α) (fails : α → Bool) :
    List Nat :=
  (idxFrom k l).filterMap (fun p => if fails p.2 then some p.1 else none)

/-- The specification-side description of compaction: drop exactly the
elements whose index (counting from `k`) lies in `F`, keeping order. -/
def dropIdxs {α : Type _} (k : Nat) (l : List α) (F : List Nat) : List α :=
  (idxFrom k l).filterMap (fun p => if p.1 ∈ F then none else some p.2)

/-- `defaultFrameWatcher.writeToAll` (lines 335–379) on the writer list:
`wres w buf` is the error returned by `w.Write(buf)` (none = success).
Returns the compacted writer list and the returned error:
`errDefaultFrameWatcherDone` exactly when no writers remain after
compaction of at least one failure. -/
def writeToAll {α : Type _} (ws : List α) (buf : Bytes)
    (wres : α → Bytes → Option GwrErr) : List α × Option GwrErr :=
  let failed := collectFailed 0 ws (fun w => (wres w buf).isSome)
  if failed.isEmpty then (ws, none)
  else
    let okay := compactLoop ws (idxFrom 0 ws) failed []
    (okay, if okay.isEmpty then some GwrErr.allWritersDone else none)

/-! ## marshaled.go : formats, frame watcher, marshaled watcher -/

/-- `GenericDataFormat` (lines 66–78), over an abstract raw-data type `D`. -/
structure GenericDataFormat (D : Type) where
  marshalGet : D → Except GwrErr Bytes
  marshalInit : D → Except GwrErr Bytes
  marshalItem : D → Except GwrErr Bytes
  frameItem : Bytes → Except GwrErr Bytes

/-- `defaultFrameWatcher` (lines 282–285): a format plus the registered
raw writers (abstract writer handles of type `W`). -/
structure defaultFrameWatcher (D W : Type) where
  format : GenericDataFormat D
  writers : List W

/-- `defaultFrameWatcher.init` (lines 287–305): when initial data is
present, marshal + frame it and write it to the new writer, failing
without registering on any error; then append the writer.  `wWrite` is
the outcome of `w.Write` on this call. -/
def defaultFrameWatcher.init {D W : Type} (dfw : defaultFrameWatcher D W)
    (data : Option D) (w : W) (wWrite : Bytes → Option GwrErr) :
    defaultFrameWatcher D W × Option GwrErr :=
  match data with
  | some d =>
    match dfw.format.marshalInit d with
    | Except.error e => (dfw, some e)
    | Except.ok buf =>
      match dfw.format.frameItem buf with
      | Except.error e => (dfw, some e)
      | Except.ok framed =>
        match wWrite framed with
        | some e => (dfw, some e)
        | none => ({ dfw with writers := dfw.writers ++ [w] }, none)
  | none => ({ dfw with writers := dfw.writers ++ [w] }, none)

/-- `defaultFrameWatcher.HandleItem` (lines 307–318): report
`errDefaultFrameWatcherDone` when no writers are registered; frame the
item, returning a framing error as-is; otherwise fan the framed bytes out
via `writeToAll`.  `wres w b` is the error of `w.Write(b)` on this call. -/
def defaultFrameWatcher.HandleItem {D W : Type} (dfw : defaultFrameWatcher D W)
    (item : Bytes) (wres : W → Bytes → Option GwrErr) :
    defaultFrameWatcher D W × Option GwrErr :=
  if dfw.writers.isEmpty then (dfw, some GwrErr.allWritersDone)
  else
    match dfw.format.frameItem item with
    | Except.error e => (dfw, some e)
    | Except.ok framed =>
      let r := writeToAll dfw.writers framed wres
      ({ dfw with writers := r.1 }, r.2)

/-- `marshaledWatcher` (lines 87–92).  In the source `gw.watchers` is a
list of `ItemWatcher`s, but the only value ever appended to it is
`&gw.dfw` (line 105), appended only when `gw.dfw.writers` just reached
length 1, and removed only by the compaction in `emit`; so at every state
reachable through the API the list is `[]` or `[&gw.dfw]`.  `registered`
models whether `&gw.dfw` is currently in `gw.watchers`. -/
structure marshaledWatcher (D W : Type) where
  format : GenericDataFormat D
  dfw : defaultFrameWatcher D W
  registered : Bool

/-- `newMarshaledWatcher` (lines 94–98). -/
def newMarshaledWatcher {D W : Type} (format : GenericDataFormat D) :
    marshaledWatcher D W :=
  { format := format
    dfw := { format := format, writers := [] }
    registered := false }

/-- `marshaledWatcher.init` (lines 100–108): delegate to `dfw.init` with
the source's `GetInit()` data (passed in as `data`); on success register
the frame watcher as the item watcher exactly when its writer list just
became a singleton. -/
def marshaledWatcher.init {D W : Type} (gw : marshaledWatcher D W)
    (data : Option D) (w : W) (wWrite : Bytes → Option GwrErr) :
    marshaledWatcher D W × Option GwrErr :=
  match gw.dfw.init data w wWrite with
  | (_, some e) => (gw, some e)
  | (dfw', none) =>
    ({ gw with
        dfw := dfw'
        registered := if dfw'.writers.length = 1 then true else gw.registered },
     none)

/-- `marshaledWatcher.emit` (lines 110–157): no registered item watcher →
`false`; marshal error → log and `false`; otherwise `HandleItem` on the
frame watcher, dropping it from the (singleton) watcher list when it
errors, and return whether a watcher remains. -/
def marshaledWatcher.emit {D W : Type} (gw : marshaledWatcher D W) (data : D)
    (wres : W → Bytes → Option GwrErr) : marshaledWatcher D W × Bool :=
  if gw.registered = false then (gw, false)
  else
    match gw.format.marshalItem data with
    | Except.error _ => (gw, false)
    | Except.ok item =>
      match gw.dfw.HandleItem item wres with
      | (dfw', none) => ({ gw with dfw := dfw' }, true)
      | (dfw', some _) => ({ gw with dfw := dfw', registered := false }, false)

/-! ## marshaled.go : MarshaledDataSource -/

/-- `MarshaledDataSource` (lines 22–28).  The `source` field is not stored:
the data the source currently yields is passed to each operation as a
parameter. -/
structure MarshaledDataSource (D W : Type) where
  formats : List (Bytes × GenericDataFormat D)
  formatNames : List Bytes
  watchers : List (Bytes × marshaledWatcher D W)
  watching : Bool

/-- `NewMarshaledDataSource` (lines 161–205).  `textTemplate` models
`source.TextTemplate()` (`none` = nil); `ldjson` and `templated` model the
package-level `LDJSONMarshal` and `NewTemplatedMarshal(tt)` formats, which
live outside the files under study.  Note the returned `formats` field is
the caller's map unchanged, while the default formats are added only to
`formatNames` and `watchers`. -/
def NewMarshaledDataSource {D W : Type} (textTemplate : Option Unit)
    (formats : List (Bytes × GenericDataFormat D))
    (ldjson templated : GenericDataFormat D) : MarshaledDataSource D W :=
  let jsonDefault : List (Bytes × marshaledWatcher D W) :=
    if (lookupA formats jsonName).isNone
    then [(jsonName, newMarshaledWatcher ldjson)] else []
  let textDefault : List (Bytes × marshaledWatcher D W) :=
    match textTemplate with
    | some _ =>
      if (lookupA formats textName).isNone
      then [(textName, newMarshaledWatcher templated)] else []
    | none => []
  let defaults := jsonDefault ++ textDefault
  { formats := formats
    formatNames := defaults.map Prod.fst ++ formats.map Prod.fst
    watchers :=
      defaults ++ formats.map (fun nf => (nf.1, newMarshaledWatcher nf.2))
    watching := false }

/-- `MarshaledDataSource.Formats` (lines 213–215). -/
def MarshaledDataSource.Formats {D W : Type} (mds : MarshaledDataSource D W) :
    List Bytes :=
  mds.formatNames

/-- `MarshaledDataSource.Get` (lines 224–240): look the format up in
`mds.formats` under the lower-cased name, else `ErrUnsupportedFormat`;
`getData` models `mds.source.Get()` (`none` = nil → `ErrNotGetable`);
marshal, then write to the sink, whose outcome is `wWrite`. -/
def MarshaledDataSource.Get {D W : Type} (mds : MarshaledDataSource D W)
    (getData : Option D) (formatName : Bytes)
    (wWrite : Bytes → Option GwrErr) : Option GwrErr :=
  match lookupA mds.formats (goToLower formatName) with
  | none => some GwrErr.unsupportedFormat
  | some format =>
    match getData with
    | none => some GwrErr.notGetable
    | some d =>
      match format.marshalGet d with
      | Except.error e => some e
      | Except.ok buf => wWrite buf

/-- `MarshaledDataSource.Watch` (lines 245–262): look the watcher up under
the lower-cased name, else `ErrUnsupportedFormat`; `init` the watcher with
the source's `GetInit()` data; on success, if not already watching,
register `mds.emit` with the source (`Bool` result = whether
`source.Watch(mds.emit)` was called) and set `watching`. -/
def MarshaledDataSource.Watch {D W : Type} (mds : MarshaledDataSource D W)
    (initData : Option D) (formatName : Bytes) (w : W)
    (wWrite : Bytes → Option GwrErr) :
    MarshaledDataSource D W × Option GwrErr × Bool :=
  match lookupA mds.watchers (goToLower formatName) with
  | none => (mds, some GwrErr.unsupportedFormat, false)
  | some watcher =>
    match watcher.init initData w wWrite with
    | (_, some e) => (mds, some e, false)
    | (watcher', none) =>
      if mds.watching
      then ({ mds with
                watchers := updateA mds.watchers (goToLower formatName) watcher' },
            none, false)
      else ({ mds with
                watchers := updateA mds.watchers (goToLower formatName) watcher',
                watching := true },
            none, true)

/-- `MarshaledDataSource.emit` (lines 264–278): not watching → `false`;
otherwise emit to every format watcher (the same raw item), keep watching
iff any reported remaining sinks, and return that. -/
def MarshaledDataSource.emit {D W : Type} (mds : MarshaledDataSource D W)
    (data : D) (wres : Bytes → W → Bytes → Option GwrErr) :
    MarshaledDataSource D W × Bool :=
  if mds.watching = false then (mds, false)
  else
    ({ mds with
        watchers :=
          (mds.watchers.map (fun nw => (nw.1, nw.2.emit data (wres nw.1)))).map
            (fun r => (r.1, r.2.1)),
        watching :=
          (mds.watchers.map (fun nw => (nw.1, nw.2.emit data (wres nw.1)))).any
            (fun r => r.2.2) },
     (mds.watchers.map (fun nw => (nw.1, nw.2.emit data (wres nw.1)))).any
       (fun r => r.2.2))

/-! ## serve.go : indirect server handle and protocol front door -/

/-- A network address (`net.Addr`), abstract. -/
abbrev NetAddr := Bytes

/-- A `*ConfiguredServer` as seen through the indirect handle: the concrete
server type lives outside the files under study, so it is modelled by the
results its three operations produce. -/
structure ConfiguredServer where
  addr : Option NetAddr
  startOn : Bytes → Option GwrErr
  stop : Option GwrErr

/-- `indirectServer.Addr` (`serve.go` lines 22–28): a nil underlying server
yields a nil address — the signature has no error channel. -/
def indirectServer.Addr (cs : Option ConfiguredServer) : Option NetAddr :=
  match cs with
  | none => none
  | some srv => srv.addr

/-- `indirectServer.StartOn` (`serve.go` lines 30–36): `errNoServer` while
the underlying server is unset, otherwise delegate. -/
def indirectServer.StartOn (cs : Option ConfiguredServer) (laddr : Bytes) :
    Option GwrErr :=
  match cs with
  | none => some GwrErr.noServer
  | some srv => srv.startOn laddr

/-- `indirectServer.Stop` (`serve.go` lines 38–44): `errNoServer` while the
underlying server is unset, otherwise delegate. -/
def indirectServer.Stop (cs : Option ConfiguredServer) : Option GwrErr :=
  match cs with
  | none => some GwrErr.noServer
  | some srv => srv.stop

/-- Modelled from the spec: `resp.IsFirstByteRespTag` lives in
`internal/resp`, outside the files under study; per the spec it tests
whether the single peeked byte matches the RESP line-protocol tag.  The
RESP type tags are `+ - : $ *`. -/
def IsFirstByteRespTag (peeked : Bytes) : Bool :=
  match peeked with
  | [] => false
  | b :: _ => b ∈ [43, 45, 58, 36, 42]

/-- A `stacked.Detector` (`serve.go` lines 86–90): how many leading bytes
to peek, the test on them, and the handler to dispatch to (handlers are
abstract values of type `H`). -/
structure Detector (H : Type) where
  needed : Nat
  test : Bytes → Bool
  handler : H

/-- `respDetector` (`serve.go` lines 82–91): peek 1 byte, test it with
`resp.IsFirstByteRespTag`, dispatch to the RESP connection handler. -/
def respDetector {H : Type} (respHandler : H) : Detector H :=
  { needed := 1, test := IsFirstByteRespTag, handler := respHandler }

/-- Modelled from the spec: the dispatch of the external `stacked` server
library used by `NewServer` — peek the detector's `needed` leading bytes
without consuming them; if its test accepts them, dispatch to its handler,
otherwise to the default handler; either way the chosen handler receives
every byte of the connection in the original order. -/
def stackedDispatch {H : Type} (det : Detector H) (defaultHandler : H)
    (conn : Bytes) : H × Bytes :=
  if det.test (conn.take det.needed) then (det.handler, conn)
  else (defaultHandler, conn)

/-- `NewServer` (`serve.go` lines 70–80) as a connection classifier: a
server stacking the RESP detector over the default HTTP handler. -/
def NewServer {H : Type} (respHandler httpHandler : H) (conn : Bytes) :
    H × Bytes :=
  stackedDispatch (respDetector respHandler) httpHandler conn

/-! ## Concrete fixtures used by evaluation and witness theorems -/

/-- A trivially succeeding format over `Unit` data (every marshal yields
the empty byte string). -/
def unitFormatOK : GenericDataFormat Unit :=
  { marshalGet := fun _ => Except.ok []
    marshalInit := fun _ => Except.ok []
    marshalItem := fun _ => Except.ok []
    frameItem := fun b => Except.ok b }

/-- A format over `Unit` data whose framing always fails (marshaling
succeeds). -/
def unitFormatFrameFail : GenericDataFormat Unit :=
  { marshalGet := fun _ => Except.ok []
    marshalInit := fun _ => Except.ok []
    marshalItem := fun _ => Except.ok []
    frameItem := fun _ => Except.error (GwrErr.frameErr 0) }

/-- A sink write that always succeeds. -/
def wOK : Bytes → Option GwrErr := fun _ => none

/-- Per-writer write outcomes that always succeed. -/
def wresOK : Nat → Bytes → Option GwrErr := fun _ _ => none

/-- Per-format, per-writer write outcomes that always succeed. -/
def wresFmtOK : Bytes → Nat → Bytes → Option GwrErr := fun _ _ _ => none

/-- An open, idle, empty coalescing buffer. -/
def cb0 : chanBuf :=
  { buffer := [], closed := false, pending := false, p := [], sent := 0 }

/-- Trace for the framing-error scenario: a fresh format channel whose
format cannot frame items. -/
def mwFrameTrace0 : marshaledWatcher Unit Nat :=
  newMarshaledWatcher unitFormatFrameFail

/-- State after one successful attach of sink 1 (no initial data). -/
def mwFrameTrace1 : marshaledWatcher Unit Nat := (mwFrameTrace0.init none 1 wOK).1

/-- State after one emit, whose framing fails. -/
def mwFrameTrace2 : marshaledWatcher Unit Nat := (mwFrameTrace1.emit () wresOK).1

/-- State after a further successful attach of sink 2. -/
def mwFrameTrace3 : marshaledWatcher Unit Nat := (mwFrameTrace2.init none 2 wOK).1

/-- The marshaled data source built over an empty caller formats map and a
source with no text template: only the default "json" format exists. -/
def mdsJsonOnly : MarshaledDataSource Unit Nat :=
  NewMarshaledDataSource none [] unitFormatOK unitFormatOK

/-- `mdsJsonOnly` in the watching state (as after a successful `Watch`). -/
def mdsWatching : MarshaledDataSource Unit Nat :=
  { mdsJsonOnly with watching := true }

/-! ## Lemmas about the failed-index compaction -/

section Compaction

variable {α : Type _}

@[simp] lemma idxFrom_nil (k : Nat) : idxFrom k ([] : List α) = [] := rfl

@[simp] lemma idxFrom_cons (k : Nat) (a : α) (as : List α) :
    idxFrom k (a :: as) = (k, a) :: idxFrom (k + 1) as := rfl

@[simp] lemma dropIdxs_nil (k : Nat) (F : List Nat) :
    dropIdxs k ([] : List α) F = [] := rfl

lemma dropIdxs_cons (k : Nat) (a : α) (as : List α) (F : List Nat) :
    dropIdxs k (a :: as) F
      = (if k ∈ F then [] else [a]) ++ dropIdxs (k + 1) as F := by
  simp only [dropIdxs, idxFrom_cons, List.filterMap_cons]
  split <;> simp_all

@[simp] lemma collectFailed_nil (k : Nat) (fails : α → Bool) :
    collectFailed k ([] : List α) fails = [] := rfl

lemma collectFailed_cons (k : Nat) (a : α) (as : List α) (fails : α → Bool) :
    collectFailed k (a :: as) fails
      = (if fails a then [k] else []) ++ collectFailed (k + 1) as fails := by
  simp only [collectFailed, idxFrom_cons, List.filterMap_cons]
  split <;> simp_all

lemma collectFailed_mem (fails : α → Bool) :
    ∀ (l : List α) (k j : Nat), j ∈ collectFailed k l fails → k ≤ j
  | [], k, j, h => by simp at h
  | a :: as, k, j, h => by
    rw [collectFailed_cons] at h
    rcases List.mem_append.1 h with h1 | h2
    · split at h1 <;> simp_all
    · have := collectFailed_mem fails as (k + 1) j h2
      omega

lemma collectFailed_pairwise (fails : α → Bool) :
    ∀ (l : List α) (k : Nat), List.Pairwise (· < ·) (collectFailed k l fails)
  | [], _ => by simp
  | a :: as, k => by
    rw [collectFailed_cons]
    split
    · simp only [List.singleton_append, List.pairwise_cons]
      exact ⟨fun j hj => lt_of_lt_of_le (Nat.lt_succ_self k)
               (collectFailed_mem fails as (k + 1) j hj),
             collectFailed_pairwise fails as (k + 1)⟩
    · simpa using collectFailed_pairwise fails as (k + 1)

lemma collectFailed_eq_nil (fails : α → Bool) :
    ∀ (l : List α) (k : Nat), (∀ a ∈ l, fails a = false) →
      collectFailed k l fails = []
  | [], _, _ => rfl
  | a :: as, k, h => by
    rw [collectFailed_cons, h a (by simp)]
    simpa using collectFailed_eq_nil fails as (k + 1)
      (fun b hb => h b (List.mem_cons_of_mem a hb))

lemma collectFailed_length (fails : α → Bool) :
    ∀ (l : List α) (k : Nat),
      (collectFailed k l fails).length = (l.filter fails).length
  | [], _ => rfl
  | a :: as, k => by
    rw [collectFailed_cons, List.filter_cons]
    rcases hf : fails a <;>
      simp [hf, collectFailed_length fails as (k + 1)]

lemma dropIdxs_below (l : List α) :
    ∀ (k : Nat) (F : List Nat), (∀ j ∈ F, j < k) → dropIdxs k l F = l := by
  induction l with
  | nil => intro k F _; rfl
  | cons a as ih =>
    intro k F h
    rw [dropIdxs_cons]
    have hk : k ∉ F := fun hmem => absurd (h k hmem) (lt_irrefl k)
    rw [if_neg hk, ih (k + 1) F (fun j hj => Nat.lt_succ_of_lt (h j hj))]
    rfl

lemma dropIdxs_drop_head (l : List α) :
    ∀ (k f0 : Nat) (F : List Nat), f0 < k →
      dropIdxs k l (f0 :: F) = dropIdxs k l F := by
  induction l with
  | nil => intro k f0 F _; rfl
  | cons a as ih =>
    intro k f0 F h
    rw [dropIdxs_cons, dropIdxs_cons, ih (k + 1) f0 F (Nat.lt_succ_of_lt h)]
    by_cases hk : k ∈ F
    · rw [if_pos hk, if_pos (List.mem_cons_of_mem f0 hk)]
    · rw [if_neg hk, if_neg (fun hmem => by
        rcases List.mem_cons.1 hmem with heq | hm
        · omega
        · exact hk hm)]

lemma compactLoop_eq (orig : List α) :
    ∀ (s : List α) (k : Nat) (failed : List Nat) (okay : List α),
      orig.drop k = s →
      List.Pairwise (· < ·) failed →
      (∀ j ∈ failed, k ≤ j) →
      failed ≠ [] →
      compactLoop orig (idxFrom k s) failed okay = okay ++ dropIdxs k s failed := by
  intro s
  induction s with
  | nil =>
    intro k failed okay _ _ _ hne
    cases failed with
    | nil => exact absurd rfl hne
    | cons f0 ftl => simp [compactLoop, dropIdxs]
  | cons a as ih =>
    intro k failed okay hs hp hlb hne
    cases failed with
    | nil => exact absurd rfl hne
    | cons f0 ftl =>
      have hdrop : orig.drop (k + 1) = as := by
        rw [← List.drop_drop 1 k orig, hs]
        rfl
      have hkf0 : k ≤ f0 := hlb f0 (by simp)
      have hhead : ∀ j ∈ ftl, f0 < j := (List.pairwise_cons.1 hp).1
      have htail : List.Pairwise (· < ·) ftl := (List.pairwise_cons.1 hp).2
      rw [idxFrom_cons]
      by_cases he : k = f0
      · subst he
        cases ftl with
        | nil =>
          show compactLoop orig ((k, a) :: idxFrom (k + 1) as) [k] okay
                = okay ++ dropIdxs k (a :: as) [k]
          rw [dropIdxs_cons, if_pos (by simp),
              dropIdxs_below as (k + 1) [k] (by simp)]
          simp [compactLoop, hdrop]
        | cons f1 ftl1 =>
          show compactLoop orig ((k, a) :: idxFrom (k + 1) as) (k :: f1 :: ftl1) okay
                = okay ++ dropIdxs k (a :: as) (k :: f1 :: ftl1)
          have hstep : compactLoop orig ((k, a) :: idxFrom (k + 1) as)
              (k :: f1 :: ftl1) okay
              = compactLoop orig (idxFrom (k + 1) as) (f1 :: ftl1) okay := by
            simp [compactLoop]
          rw [hstep, ih (k + 1) (f1 :: ftl1) okay hdrop htail
            (fun j hj => hhead j hj) (by simp),
            dropIdxs_cons, if_pos (by simp),
            dropIdxs_drop_head as (k + 1) k (f1 :: ftl1) (Nat.lt_succ_self k)]
          rfl
      · have hlt : k < f0 := lt_of_le_of_ne hkf0 he
        have hstep : compactLoop orig ((k, a) :: idxFrom (k + 1) as)
            (f0 :: ftl) okay
            = compactLoop orig (idxFrom (k + 1) as) (f0 :: ftl) (okay ++ [a]) := by
          simp [compactLoop, he, Nat.not_le.2 hlt]
        have hnot : k ∉ f0 :: ftl := fun hmem => by
          rcases List.mem_cons.1 hmem with heq | hm
          · omega
          · have := hhead k hm; omega
        rw [hstep, ih (k + 1) (f0 :: ftl) (okay ++ [a]) hdrop hp
            (fun j hj => by
              rcases List.mem_cons.1 hj with heq | hm
              · omega
              · have := hhead j hm; omega)
            (by simp),
          dropIdxs_cons, if_neg hnot]
        simp

lemma dropIdxs_collectFailed (fails : α → Bool) :
    ∀ (l : List α) (k : Nat),
      dropIdxs k l (collectFailed k l fails) = l.filter (fun a => !fails a) := by
  intro l
  induction l with
  | nil => intro k; rfl
  | cons a as ih =>
    intro k
    rw [collectFailed_cons, dropIdxs_cons, List.filter_cons]
    cases hf : fails a with
    | false =>
      have hk : k ∉ collectFailed (k + 1) as fails := fun hm =>
        absurd (collectFailed_mem fails as (k + 1) k hm) (by omega)
      simp only [hf, if_neg (Bool.false_ne_true), List.nil_append, if_neg hk,
        ih (k + 1)]
      simp [hf]
    | true =>
      rw [show ((if (true : Bool) = true then [k] else [])
              ++ collectFailed (k + 1) as fails)
            = k :: collectFailed (k + 1) as fails from by simp]
      rw [if_pos (List.mem_cons_self k (collectFailed (k + 1) as fails)),
        dropIdxs_drop_head as (k + 1) k (collectFailed (k + 1) as fails)
          (Nat.lt_succ_self k), ih (k + 1)]
      simp

lemma filter_not_length_add (fails : α → Bool) (l : List α) :
    (l.filter (fun a => !fails a)).length + (l.filter fails).length = l.length := by
  induction l with
  | nil => rfl
  | cons a as ih =>
    rw [List.filter_cons, List.filter_cons]
    rcases hf : fails a <;> simp [hf] <;> omega

lemma writeToAll_no_failures (ws : List α) (buf : Bytes)
    (wres : α → Bytes → Option GwrErr)
    (h : ∀ w ∈ ws, wres w buf = none) :
    writeToAll ws buf wres = (ws, none) := by
  unfold writeToAll
  rw [collectFailed_eq_nil _ ws 0 (fun a ha => by rw [h a ha]; rfl)]
  rfl

end Compaction

section FrameWatcher

variable {D W : Type}

lemma writeToAll_err (ws : List W) (buf : Bytes)
    (wres : W → Bytes → Option GwrErr) (hne : ws ≠ []) :
    ((writeToAll ws buf wres).2 = some GwrErr.allWritersDone ↔
      (writeToAll ws buf wres).1 = [])
    ∧ ((writeToAll ws buf wres).2 = none ∨
       (writeToAll ws buf wres).2 = some GwrErr.allWritersDone) := by
  by_cases hF : (collectFailed 0 ws (fun w => (wres w buf).isSome)).isEmpty
  · constructor
    · simp [writeToAll, hF, hne]
    · simp [writeToAll, hF]
  · by_cases hok :
      (compactLoop ws (idxFrom 0 ws)
        (collectFailed 0 ws (fun w => (wres w buf).isSome)) []).isEmpty
    · constructor
      · simp only [writeToAll, if_neg hF, if_pos hok]
        simpa using List.isEmpty_iff.1 hok
      · simp [writeToAll, hF, hok]
    · constructor
      · simp only [writeToAll, if_neg hF, if_neg hok]
        constructor
        · intro h; cases h
        · intro h; exact absurd (List.isEmpty_iff.2 h) hok
      · simp [writeToAll, hF, hok]

lemma HandleItem_eq_frame_err (dfw : defaultFrameWatcher D W)
    (item : Bytes) (e : GwrErr) (wres : W → Bytes → Option GwrErr)
    (hne : ¬dfw.writers.isEmpty = true)
    (hfi : dfw.format.frameItem item = Except.error e) :
    dfw.HandleItem item wres = (dfw, some e) := by
  unfold defaultFrameWatcher.HandleItem
  rw [if_neg hne, hfi]

lemma HandleItem_eq_ok (dfw : defaultFrameWatcher D W)
    (item framed : Bytes) (wres : W → Bytes → Option GwrErr)
    (hne : ¬dfw.writers.isEmpty = true)
    (hfi : dfw.format.frameItem item = Except.ok framed) :
    dfw.HandleItem item wres
      = ({ dfw with writers := (writeToAll dfw.writers framed wres).1 },
         (writeToAll dfw.writers framed wres).2) := by
  unfold defaultFrameWatcher.HandleItem
  rw [if_neg hne, hfi]

lemma HandleItem_no_failures (dfw : defaultFrameWatcher D W)
    (item framed : Bytes) (wres : W → Bytes → Option GwrErr)
    (hne : dfw.writers ≠ [])
    (hfr : dfw.format.frameItem item = Except.ok framed)
    (hok : ∀ w ∈ dfw.writers, wres w framed = none) :
    dfw.HandleItem item wres = (dfw, none) := by
  rw [HandleItem_eq_ok dfw item framed wres
      (fun h => hne (List.isEmpty_iff.1 h)) hfr,
    writeToAll_no_failures dfw.writers framed wres hok]

end FrameWatcher

/-! ## Claim theorems -/

/-- Claim C3: for a single `writeToAll` call on a fanout with sink list
`ws` in which exactly the sinks at the (ascending) index set `F` fail —
`F` being `collectFailed`, the failure indices the call itself gathers —
the post-call sink list equals `ws` with exactly the indices in `F`
removed in order (`dropIdxs`), and its length is `ws.length - F.length`. -/
theorem writeToAll_compaction {α : Type _} (ws : List α) (buf : Bytes)
    (wres : α → Bytes → Option GwrErr) :
    (writeToAll ws buf wres).1
      = dropIdxs 0 ws (collectFailed 0 ws (fun w => (wres w buf).isSome))
    ∧ (writeToAll ws buf wres).1.length
      = ws.length - (collectFailed 0 ws (fun w => (wres w buf).isSome)).length := by
  have hmain : (writeToAll ws buf wres).1
      = dropIdxs 0 ws (collectFailed 0 ws (fun w => (wres w buf).isSome)) := by
    by_cases hF : (collectFailed 0 ws (fun w => (wres w buf).isSome)).isEmpty
    · rw [List.isEmpty_iff] at hF
      simp [writeToAll, hF, dropIdxs_below ws 0 [] (by simp)]
    · have hne : collectFailed 0 ws (fun w => (wres w buf).isSome) ≠ [] := by
        intro h; exact hF (List.isEmpty_iff.2 h)
      have := compactLoop_eq ws ws 0
        (collectFailed 0 ws (fun w => (wres w buf).isSome)) []
        (List.drop_zero ws)
        (collectFailed_pairwise _ ws 0)
        (fun j _ => Nat.zero_le j) hne
      simp only [writeToAll, if_neg hF]
      simpa using this
  refine ⟨hmain, ?_⟩
  rw [hmain, dropIdxs_collectFailed, collectFailed_length]
  have := filter_not_length_add (fun w => (wres w buf).isSome) ws
  omega

/-- Claim C7, counterexample to the claim as stated: a fanout whose format
fails to frame the item returns that framing error — not `nil` — even
though its single sink survives the call untouched. -/
theorem HandleItem_frame_error_counterexample :
    ((({ format := unitFormatFrameFail, writers := [1] } :
        defaultFrameWatcher Unit Nat).HandleItem [] wresOK).1.writers = [1])
    ∧ ((({ format := unitFormatFrameFail, writers := [1] } :
        defaultFrameWatcher Unit Nat).HandleItem [] wresOK).2
          = some (GwrErr.frameErr 0)) := by
  exact ⟨rfl, rfl⟩

/-- Claim C7 (amended): provided the format's framing errors are distinct
from the "all writers done" sentinel, `HandleItem` returns that sentinel
exactly when no sinks remain after the call (none registered before it, or
every write failed during it); when framing succeeds the result is `nil`
or the sentinel — an individual sink's write error is never propagated —
and in particular when framing succeeds and at least one sink survives the
result is `nil`.  A framing failure, however, is returned as that framing
error with all sinks surviving (see the counterexample). -/
theorem HandleItem_done_iff {D W : Type} (dfw : defaultFrameWatcher D W)
    (item : Bytes) (wres : W → Bytes → Option GwrErr)
    (hframe : ∀ b, dfw.format.frameItem b ≠ Except.error GwrErr.allWritersDone) :
    ((dfw.HandleItem item wres).2 = some GwrErr.allWritersDone ↔
      (dfw.HandleItem item wres).1.writers = [])
    ∧ (∀ framed, dfw.format.frameItem item = Except.ok framed →
        ((dfw.HandleItem item wres).2 = none ∨
         (dfw.HandleItem item wres).2 = some GwrErr.allWritersDone))
    ∧ (∀ framed, dfw.format.frameItem item = Except.ok framed →
        (dfw.HandleItem item wres).1.writers ≠ [] →
        (dfw.HandleItem item wres).2 = none) := by
  by_cases hw : dfw.writers.isEmpty
  · have hwn : dfw.writers = [] := List.isEmpty_iff.1 hw
    refine ⟨by simp [defaultFrameWatcher.HandleItem, hw, hwn], ?_, ?_⟩
    · intro framed _
      right
      simp [defaultFrameWatcher.HandleItem, hw]
    · intro framed _ hne
      exact absurd (by simp [defaultFrameWatcher.HandleItem, hw, hwn]) hne
  · have hwn : dfw.writers ≠ [] := by
      intro h; exact hw (List.isEmpty_iff.2 h)
    rcases hfi : dfw.format.frameItem item with e | framed
    · have heq := HandleItem_eq_frame_err dfw item e wres hw hfi
      refine ⟨?_, ?_, ?_⟩
      · rw [heq]
        constructor
        · intro h
          have he : e = GwrErr.allWritersDone := Option.some_inj.1 h
          rw [he] at hfi
          exact absurd hfi (hframe item)
        · intro h; exact absurd h hwn
      · intro framed hok2
        exact Except.noConfusion hok2
      · intro framed hok2
        exact Except.noConfusion hok2
    · have heq := HandleItem_eq_ok dfw item framed wres hw hfi
      have hwta := writeToAll_err dfw.writers framed wres hwn
      refine ⟨?_, ?_, ?_⟩
      · rw [heq]
        exact hwta.1
      · intro framed' h
        injection h with h4
        rw [heq]
        rcases hwta.2 with hnone | hdone
        · left; exact hnone
        · right; exact hdone
      · intro framed' h hne2
        injection h with h4
        rw [heq] at hne2 ⊢
        rcases hwta.2 with hnone | hdone
        · exact hnone
        · exact absurd (hwta.1.1 hdone) hne2

/-- Witness for `HandleItem_done_iff` at a two-sink fanout whose format
frames successfully and whose first sink fails. -/
theorem HandleItem_done_iff_witness :
    ((({ format := unitFormatOK, writers := [1, 2] } :
        defaultFrameWatcher Unit Nat).HandleItem [5]
          (fun w _ => if w = 1 then some (GwrErr.writeErr 1) else none)).2
        = some GwrErr.allWritersDone ↔
      (({ format := unitFormatOK, writers := [1, 2] } :
        defaultFrameWatcher Unit Nat).HandleItem [5]
          (fun w _ => if w = 1 then some (GwrErr.writeErr 1) else none)).1.writers
        = []) := by
  exact (HandleItem_done_iff
    ({ format := unitFormatOK, writers := [1, 2] } :
      defaultFrameWatcher Unit Nat) [5]
    (fun w _ => if w = 1 then some (GwrErr.writeErr 1) else none)
    (fun b h => by simp [unitFormatOK] at h)).1

/-- Claim C1 (the code evaluated at the failing input): for a source
constructed with an empty caller formats map, `"json"` is a supported
format name — it is in `formatNames` (what `Formats()` reports) and
`Watch("json")` can resolve it in `watchers` — and yet `Get("json")` fails
with `ErrUnsupportedFormat`, because `Get` consults the caller-supplied
`formats` map, to which `NewMarshaledDataSource` never added the default
line-delimited-JSON entry. -/
theorem mds_get_default_json_eval :
    mdsJsonOnly.formatNames = [jsonName]
    ∧ (lookupA mdsJsonOnly.watchers jsonName).isSome = true
    ∧ mdsJsonOnly.Get (some ()) jsonName wOK = some GwrErr.unsupportedFormat := by
  decide

/-- Claim C5 (the code evaluated at the failing trace): attach sink 1 to a
fresh format channel (registered becomes true); emit one item whose
framing fails — the fanout is dropped from the watcher list while its sink
list is still `[1]`, breaking the "registered iff at least one attached
sink" invariant; a subsequent successful attach of sink 2 leaves the
channel unregistered (the `len(writers) == 1` re-registration test cannot
fire), so the channel never becomes eligible for live items again. -/
theorem mw_frame_drop_eval :
    (mwFrameTrace0.init none 1 wOK).2 = none
    ∧ mwFrameTrace1.registered = true
    ∧ mwFrameTrace1.dfw.writers = [1]
    ∧ (mwFrameTrace1.emit () wresOK).2 = false
    ∧ mwFrameTrace2.registered = false
    ∧ mwFrameTrace2.dfw.writers = [1]
    ∧ (mwFrameTrace2.init none 2 wOK).2 = none
    ∧ mwFrameTrace3.registered = false
    ∧ mwFrameTrace3.dfw.writers = [1, 2] := by
  decide

/-- Claim C8, counterexample to the claim as stated: on the unset handle,
`Addr` returns the nil address rather than failing with the "no server
configured" error — its signature has no error channel at all, so it
cannot fail as the claim requires (contrast `StartOn` and `Stop`). -/
theorem indirectServer_Addr_counterexample :
    indirectServer.Addr none = none := rfl

/-- Claim C8 (amended): while the underlying server reference is unset,
`StartOn` and `Stop` fail with the distinct "no server configured" error
and `Addr` returns the nil address; once the underlying server is set,
each of the three operations delegates to the concrete server. -/
theorem indirectServer_not_configured (laddr : Bytes) (srv : ConfiguredServer) :
    indirectServer.StartOn none laddr = some GwrErr.noServer
    ∧ indirectServer.Stop none = some GwrErr.noServer
    ∧ indirectServer.Addr none = none
    ∧ indirectServer.Addr (some srv) = srv.addr
    ∧ indirectServer.StartOn (some srv) laddr = srv.startOn laddr
    ∧ indirectServer.Stop (some srv) = srv.stop :=
  ⟨rfl, rfl, rfl, rfl, rfl, rfl⟩

/-- Claim C9: classification of an accepted connection inspects exactly
the one leading byte (`Needed = 1`): if it matches the RESP line-protocol
tag the connection goes to the RESP handler, otherwise to the default HTTP
handler, and in both cases the chosen handler receives every byte of the
connection in order (nothing is consumed or lost); moreover two
connections with the same first byte are dispatched to the same handler. -/
theorem NewServer_protocol_detection {H : Type} (respHandler httpHandler : H)
    (conn : Bytes) :
    (IsFirstByteRespTag (conn.take 1) = true →
      NewServer respHandler httpHandler conn = (respHandler, conn))
    ∧ (IsFirstByteRespTag (conn.take 1) = false →
      NewServer respHandler httpHandler conn = (httpHandler, conn))
    ∧ ∀ conn' : Bytes, conn.take 1 = conn'.take 1 →
        (NewServer respHandler httpHandler conn).1
          = (NewServer respHandler httpHandler conn').1 := by
  refine ⟨?_, ?_, ?_⟩
  · intro h
    simp only [NewServer, stackedDispatch, respDetector]
    rw [if_pos h]
  · intro h
    simp only [NewServer, stackedDispatch, respDetector]
    rw [if_neg (by simp [h])]
  · intro conn' h
    simp only [NewServer, stackedDispatch, respDetector]
    rw [← h]
    by_cases ht : IsFirstByteRespTag (conn.take 1) = true
    · rw [if_pos ht, if_pos ht]
    · rw [if_neg ht, if_neg ht]

/-- Witness for `NewServer_protocol_detection` on a connection whose first
byte is the RESP simple-string tag `+` (byte 43). -/
theorem NewServer_protocol_detection_witness :
    NewServer (H := Bool) true false [43, 104, 105] = (true, [43, 104, 105]) :=
  (NewServer_protocol_detection true false [43, 104, 105]).1 (by decide)

@[simp] lemma writeSeq_nil (cb : chanBuf) : cb.writeSeq [] = cb := rfl

lemma writeSeq_cons (cb : chanBuf) (p : Bytes) (ps : List Bytes) :
    cb.writeSeq (p :: ps) = ((cb.Write p).1).writeSeq ps := rfl

lemma length_pos_iff_isEmpty_false (p : Bytes) : 0 < p.length ↔ p.isEmpty = false := by
  cases p <;> simp

lemma chanBuf_Write_fields (cb : chanBuf) (p : Bytes) (h : cb.closed = false) :
    ((cb.Write p).1).closed = false
    ∧ ((cb.Write p).1).pending = (cb.pending || !p.isEmpty)
    ∧ ((cb.Write p).1).sent
        = cb.sent + (if 0 < p.length ∧ cb.pending = false then 1 else 0) := by
  by_cases hc : 0 < p.length ∧ cb.pending = false
  · have hpe : p.isEmpty = false := (length_pos_iff_isEmpty_false p).1 hc.1
    refine ⟨?_, ?_, ?_⟩ <;> simp [chanBuf.Write, h, hc, hpe, hc.2]
  · refine ⟨by simp [chanBuf.Write, h, hc], ?_,
      by simp [chanBuf.Write, h, hc]⟩
    cases hpend : cb.pending with
    | true => simp [chanBuf.Write, h, hc, hpend]
    | false =>
      have hp0 : p = [] := by
        rcases Nat.eq_zero_or_pos p.length with h0 | hpos
        · cases p with
          | nil => rfl
          | cons b bs => simp at h0
        · exact absurd ⟨hpos, hpend⟩ hc
      simp [chanBuf.Write, h, hc, hpend, hp0]

lemma writeSeq_spec (ps : List Bytes) :
    ∀ cb : chanBuf, cb.closed = false →
      (cb.writeSeq ps).closed = false
      ∧ (cb.writeSeq ps).pending = (cb.pending || ps.any (fun p => !p.isEmpty))
      ∧ (cb.writeSeq ps).sent = cb.sent
          + (if cb.pending = false ∧ ps.any (fun p => !p.isEmpty) = true
             then 1 else 0) := by
  induction ps with
  | nil =>
    intro cb h
    refine ⟨h, by simp, by simp⟩
  | cons p ps ih =>
    intro cb h
    rw [writeSeq_cons]
    obtain ⟨h1, h2, h3⟩ := chanBuf_Write_fields cb p h
    obtain ⟨g1, g2, g3⟩ := ih ((cb.Write p).1) h1
    refine ⟨g1, ?_, ?_⟩
    · rw [g2, h2, List.any_cons]
      cases cb.pending <;> cases p.isEmpty <;> simp
    · rw [g3, h3, h2, List.any_cons]
      cases hpend : cb.pending <;> cases hpe : p.isEmpty <;>
        cases hany : ps.any (fun p => !p.isEmpty) <;>
        simp [length_pos_iff_isEmpty_false, hpe]

/-- Claim C6: on an open, idle coalescing buffer, a sequence of writes of
which at least one appends bytes sends exactly one notification before the
next drain (regardless of how many writes there were); after `drain` the
buffer holds zero bytes and the pending flag is cleared, so the next
byte-appending write succeeds and sends exactly one new notification. -/
theorem chanBuf_coalescing (cb : chanBuf) (ps : List Bytes) (q : Bytes)
    (hopen : cb.closed = false) (hidle : cb.pending = false)
    (hsome : ps.any (fun p => !p.isEmpty) = true) (hq : q ≠ []) :
    (cb.writeSeq ps).sent = cb.sent + 1
    ∧ ((cb.writeSeq ps).drain).1.buffer = []
    ∧ ((cb.writeSeq ps).drain).1.pending = false
    ∧ (((cb.writeSeq ps).drain).1.Write q).2.2 = none
    ∧ (((cb.writeSeq ps).drain).1.Write q).1.sent = cb.sent + 2 := by
  obtain ⟨hcl, hpend, hsent⟩ := writeSeq_spec ps cb hopen
  have hs1 : (cb.writeSeq ps).sent = cb.sent + 1 := by
    rw [hsent]; simp [hidle, hsome]
  have hql : 0 < q.length := by
    cases q with
    | nil => exact absurd rfl hq
    | cons b bs => simp
  refine ⟨hs1, rfl, rfl, ?_, ?_⟩
  · simp [chanBuf.drain, chanBuf.Write, hcl, hql]
  · simp [chanBuf.drain, chanBuf.Write, hcl, hql, hs1]

/-- Witness for `chanBuf_coalescing`: two writes on a fresh buffer, the
first non-empty, then a drain and one more write. -/
theorem chanBuf_coalescing_witness :
    (cb0.writeSeq [[1], [2]]).sent = cb0.sent + 1
    ∧ ((cb0.writeSeq [[1], [2]]).drain).1.buffer = []
    ∧ ((cb0.writeSeq [[1], [2]]).drain).1.pending = false
    ∧ (((cb0.writeSeq [[1], [2]]).drain).1.Write [3]).2.2 = none
    ∧ (((cb0.writeSeq [[1], [2]]).drain).1.Write [3]).1.sent = cb0.sent + 2 :=
  chanBuf_coalescing cb0 [[1], [2]] [3] rfl rfl (by decide) (by decide)

lemma mw_emit_eq_ok {D W : Type} (gw : marshaledWatcher D W) (data : D)
    (item : Bytes) (wres : W → Bytes → Option GwrErr)
    (hreg : gw.registered = true)
    (hm : gw.format.marshalItem data = Except.ok item) :
    gw.emit data wres
      = (match gw.dfw.HandleItem item wres with
         | (dfw', none) => ({ gw with dfw := dfw' }, true)
         | (dfw', some _) =>
            ({ gw with dfw := dfw', registered := false }, false)) := by
  unfold marshaledWatcher.emit
  rw [if_neg (by simp [hreg]), hm]

/-- Claim C2: on a format channel whose fanout is registered and has at
least one attached sink, a marshal failure makes `emit` return `false`
with the channel state — its sinks included — unchanged, so the item is
dropped for this format only and future deliverability is unaffected; when
marshaling and framing succeed, `emit` returns exactly whether any sink
remains after handling the item; in particular with every sink writable it
returns `true` and leaves the channel unchanged. -/
theorem mw_emit_spec {D W : Type} (gw : marshaledWatcher D W) (data : D)
    (wres : W → Bytes → Option GwrErr)
    (hreg : gw.registered = true) (hw : gw.dfw.writers ≠ []) :
    (∀ e, gw.format.marshalItem data = Except.error e →
        gw.emit data wres = (gw, false))
    ∧ (∀ item framed, gw.format.marshalItem data = Except.ok item →
        gw.dfw.format.frameItem item = Except.ok framed →
        ((gw.emit data wres).2 = true ↔ (gw.emit data wres).1.dfw.writers ≠ []))
    ∧ (∀ item framed, gw.format.marshalItem data = Except.ok item →
        gw.dfw.format.frameItem item = Except.ok framed →
        (∀ w ∈ gw.dfw.writers, wres w framed = none) →
        gw.emit data wres = (gw, true)) := by
  have hwemp : ¬gw.dfw.writers.isEmpty = true := fun h =>
    hw (List.isEmpty_iff.1 h)
  refine ⟨?_, ?_, ?_⟩
  · intro e he
    unfold marshaledWatcher.emit
    rw [if_neg (by simp [hreg]), he]
  · intro item framed hm hf
    rw [mw_emit_eq_ok gw data item wres hreg hm,
      HandleItem_eq_ok gw.dfw item framed wres hwemp hf]
    have hwta := writeToAll_err gw.dfw.writers framed wres hw
    rcases hr : (writeToAll gw.dfw.writers framed wres).2 with _ | e'
    · refine ⟨fun _ => ?_, fun _ => rfl⟩
      show (writeToAll gw.dfw.writers framed wres).1 ≠ []
      intro hnil
      rw [hwta.1.2 hnil] at hr
      cases hr
    · have hdone : e' = GwrErr.allWritersDone := by
        rcases hwta.2 with hnone | hsome
        · rw [hnone] at hr; cases hr
        · rw [hsome] at hr; exact (Option.some_inj.1 hr).symm
      have hnil : (writeToAll gw.dfw.writers framed wres).1 = [] := by
        apply hwta.1.1
        rw [hr, hdone]
      show (false : Bool) = true ↔ (writeToAll gw.dfw.writers framed wres).1 ≠ []
      constructor
      · intro hfalse; cases hfalse
      · intro hne
        exact absurd hnil hne
  · intro item framed hm hf hok
    rw [mw_emit_eq_ok gw data item wres hreg hm,
      HandleItem_no_failures gw.dfw item framed wres hw hf hok]

/-- Witness for `mw_emit_spec` on a registered single-sink channel over a
fully succeeding format: the no-failure emit returns `true` and leaves the
channel unchanged. -/
theorem mw_emit_spec_witness :
    ({ format := unitFormatOK,
       dfw := { format := unitFormatOK, writers := [4] },
       registered := true } : marshaledWatcher Unit Nat).emit () wresOK
      = ({ format := unitFormatOK,
           dfw := { format := unitFormatOK, writers := [4] },
           registered := true }, true) :=
  (mw_emit_spec
    ({ format := unitFormatOK,
       dfw := { format := unitFormatOK, writers := [4] },
       registered := true } : marshaledWatcher Unit Nat) () wresOK rfl
    (by decide)).2.2 [] [] rfl rfl (fun w _ => rfl)

lemma mds_Watch_eq {D W : Type} (mds : MarshaledDataSource D W)
    (initData : Option D) (name : Bytes) (w : W)
    (wWrite : Bytes → Option GwrErr) (watcher watcher' : marshaledWatcher D W)
    (hlook : lookupA mds.watchers (goToLower name) = some watcher)
    (hinit : watcher.init initData w wWrite = (watcher', none))
    (hnw : mds.watching = false) :
    mds.Watch initData name w wWrite
      = ({ mds with
            watchers := updateA mds.watchers (goToLower name) watcher',
            watching := true }, none, true) := by
  unfold MarshaledDataSource.Watch
  rw [hlook]
  show (match watcher.init initData w wWrite with
        | (_, some e) => (mds, some e, false)
        | (watcher', none) =>
          if mds.watching
          then ({ mds with
                    watchers := updateA mds.watchers (goToLower name) watcher' },
                none, false)
          else ({ mds with
                    watchers := updateA mds.watchers (goToLower name) watcher',
                    watching := true },
                none, true))
      = _
  rw [hinit]
  show (if mds.watching
        then ({ mds with
                  watchers := updateA mds.watchers (goToLower name) watcher' },
              none, false)
        else ({ mds with
                  watchers := updateA mds.watchers (goToLower name) watcher',
                  watching := true },
              none, true))
      = _
  rw [if_neg (by simp [hnw])]

/-- Claim C4: when every format channel of a watching Source Multiplexer
reports no remaining sinks for an emitted item, that `emit` call returns
`false` and clears the `watching` flag (the multiplexer voluntarily
unsubscribes); a subsequent `Watch` whose format resolves and whose attach
succeeds sets `watching` back to `true` and re-registers the multiplexer's
emit callback with the underlying data source (the final Boolean records
that `source.Watch(mds.emit)` was invoked). -/
theorem mds_idle_unsubscribe {D W : Type} (mds : MarshaledDataSource D W)
    (data : D) (wres : Bytes → W → Bytes → Option GwrErr)
    (hw : mds.watching = true)
    (hall : ∀ nw ∈ mds.watchers,
      ((Prod.snd nw).emit data (wres (Prod.fst nw))).2 = false) :
    (mds.emit data wres).2 = false
    ∧ (mds.emit data wres).1.watching = false
    ∧ (∀ (initData : Option D) (name : Bytes) (w : W)
         (wWrite : Bytes → Option GwrErr)
         (watcher watcher' : marshaledWatcher D W),
        lookupA (mds.emit data wres).1.watchers (goToLower name)
          = some watcher →
        watcher.init initData w wWrite = (watcher', none) →
        ((mds.emit data wres).1.Watch initData name w wWrite).1.watching = true
        ∧ ((mds.emit data wres).1.Watch initData name w wWrite).2.1 = none
        ∧ ((mds.emit data wres).1.Watch initData name w wWrite).2.2 = true) := by
  have hany : (mds.watchers.map
        (fun nw => (nw.1, nw.2.emit data (wres nw.1)))).any
      (fun r => r.2.2) = false := by
    rw [List.any_eq_false]
    intro r hr
    obtain ⟨nw, hnw, rfl⟩ := List.mem_map.1 hr
    simp [hall nw hnw]
  have hemit : mds.emit data wres
      = ({ mds with
            watchers := (mds.watchers.map
              (fun nw => (nw.1, nw.2.emit data (wres nw.1)))).map
                (fun r => (r.1, r.2.1)),
            watching := false }, false) := by
    unfold MarshaledDataSource.emit
    rw [if_neg (by simp [hw]), hany]
  refine ⟨by rw [hemit], by rw [hemit], ?_⟩
  intro initData name w wWrite watcher watcher' hlook hinit
  have hnw : (mds.emit data wres).1.watching = false := by rw [hemit]
  rw [mds_Watch_eq (mds.emit data wres).1 initData name w wWrite
    watcher watcher' hlook hinit hnw]
  exact ⟨rfl, rfl, rfl⟩

/-- Witness for `mds_idle_unsubscribe`: a watching multiplexer whose only
"json" channel has no registered fanout (so it reports no sinks), followed
by a successful attach of sink 7 on "json". -/
theorem mds_idle_unsubscribe_witness :
    ((mdsWatching.emit () wresFmtOK).1.Watch none jsonName 7 wOK).1.watching
      = true
    ∧ ((mdsWatching.emit () wresFmtOK).1.Watch none jsonName 7 wOK).2.1 = none
    ∧ ((mdsWatching.emit () wresFmtOK).1.Watch none jsonName 7 wOK).2.2
      = true :=
  (mds_idle_unsubscribe mdsWatching () wresFmtOK rfl (by
      intro nw hnw
      have hl : mdsWatching.watchers
          = [(jsonName, newMarshaledWatcher unitFormatOK)] := rfl
      rw [hl] at hnw
      cases hnw with
      | head => rfl
      | tail _ h => cases h)).2.2
    none jsonName 7 wOK (newMarshaledWatcher unitFormatOK)
    { format := unitFormatOK,
      dfw := { format := unitFormatOK, writers := [7] },
      registered := true }
    rfl rfl

lemma asciiToLower_idem (b : Nat) :
    asciiToLower (asciiToLower b) = asciiToLower b := by
  by_cases h : 65 ≤ b ∧ b ≤ 90
  · have h1 : asciiToLower b = b + 32 := if_pos h
    rw [h1]
    unfold asciiToLower
    rw [if_neg (by omega)]
  · have h1 : asciiToLower b = b := if_neg h
    rw [h1]
    exact h1

lemma goToLower_idem (s : Bytes) : goToLower (goToLower s) = goToLower s := by
  unfold goToLower
  rw [List.map_map]
  exact List.map_congr_left (fun b _ => asciiToLower_idem b)

lemma asciiToLower_not_upper (b : Nat) :
    (decide (65 ≤ asciiToLower b) && decide (asciiToLower b ≤ 90)) = false := by
  unfold asciiToLower
  split
  · rename_i h
    have h2 : ¬(b + 32 ≤ 90) := by omega
    simp [h2]
  · rename_i h
    by_cases h1 : 65 ≤ b
    · have h2 : ¬(b ≤ 90) := fun hc => h ⟨h1, hc⟩
      simp [h2]
    · simp [h1]

lemma hasUpper_goToLower (s : Bytes) : hasUpper (goToLower s) = false := by
  unfold hasUpper goToLower
  rw [List.any_map, List.any_eq_false]
  intro b _
  simpa using asciiToLower_not_upper b

/-- Claim C10: `Get` and `Watch` resolve the requested format under the
lower-cased name — each call behaves identically to the same call with the
name lower-cased — and consequently a format registered only under a name
containing an (ASCII) upper-case letter can never be resolved, since no
lower-cased lookup key equals such a name. -/
theorem mds_lowercase_resolution {D W : Type} (mds : MarshaledDataSource D W)
    (getData initData : Option D) (name : Bytes) (w : W)
    (wWrite : Bytes → Option GwrErr) :
    mds.Get getData name wWrite = mds.Get getData (goToLower name) wWrite
    ∧ mds.Watch initData name w wWrite
        = mds.Watch initData (goToLower name) w wWrite
    ∧ ∀ key : Bytes, hasUpper key = true → goToLower name ≠ key := by
  refine ⟨?_, ?_, ?_⟩
  · unfold MarshaledDataSource.Get
    rw [goToLower_idem]
  · unfold MarshaledDataSource.Watch
    rw [goToLower_idem]
  · intro key hkey heq
    rw [← heq, hasUpper_goToLower] at hkey
    cases hkey

/-- Witness for `mds_lowercase_resolution`: the name `"JSON"` (bytes
74 83 79 78) contains upper-case letters, so its own lower-casing differs
from it — a format registered under `"JSON"` is unreachable. -/
theorem mds_lowercase_resolution_witness :
    goToLower [74, 83, 79, 78] ≠ [74, 83, 79, 78] :=
  (mds_lowercase_resolution mdsJsonOnly (some ()) none [74, 83, 79, 78]
    (5 : Nat) wOK).2.2 [74, 83, 79, 78] (by decide)

end Gwr
